import Mathlib

/-!
Shallow embedding of the retry / backoff / execution-loop core of the ghttp
package (files client source, backoff.go, retry source, dump.go, request.go).

Modelling conventions:
- Go durations (`time.Duration`) are int64 nanoseconds; they are embedded as
  `Int`, with the int64 range handled explicitly where the Go code performs
  conversions that depend on it (`f64toI64`, `i64wrap`).
- `math/rand.Int63n` is embedded by threading an arbitrary integer oracle `r`
  through the function and reducing it modulo the bound, so that every draw in
  `[0, n)` is reachable; the panic of `Int63n` on a non-positive bound is
  embedded as `none`.
- The float64 arithmetic of `exponentialBackoff.WaitTime` is embedded exactly:
  every float64 value arising there is an integer (a rounded int64 scaled by a
  power of two), so `floatRound` below implements the int64-to-float64
  conversion (round to nearest, ties to even, 53-bit significand), and the
  remaining operations (`math.Min`, multiplication by `math.Exp2` of a small
  natural number, division by two, truncation to int64) act on those integers
  exactly.  The embedding is exact for every int64 input except the corner
  `initialDuration = 0` with `attemptNum >= 1024` on the jitter-free path,
  where Go produces `0 * +Inf = NaN`; no theorem below touches that corner.
- Streams (`io.Reader` bodies) are embedded as the list of bytes they deliver
  followed by an optional terminal read error.
- The net/http transport, the request context, and the cancellable sleep are
  external collaborators; the loop observes them only through the per-attempt
  oracles of `LoopEnv` (transport result, context error after an attempt, and
  whether the context fires before the inter-attempt sleep completes).
-/

namespace Ghttp

variable {ε ρ : Type}

/-! ### Float64 model (backoff.go uses float64 arithmetic) -/

/-- Number of trailing bits dropped when a natural number is rounded to the
53-bit significand of a float64: the least e with `n / 2 ^ e < 2 ^ 53`.
Fuel-bounded recursion; fuel 64 covers every int64 magnitude. -/
def dropBits : Nat → Nat → Nat
  | 0, _ => 0
  | fuel+1, n => if n < 2^53 then 0 else dropBits fuel (n / 2) + 1

/-- Round a natural number to the nearest float64-representable value
(53-bit significand, round to nearest, ties to even).  Identity below 2^53. -/
def floatRoundNat (n : Nat) : Nat :=
  let e := dropBits 64 n
  if e = 0 then n
  else
    let q := n / 2^e
    let m := n % 2^e
    if 2*m < 2^e then q * 2^e
    else if 2^e < 2*m then (q+1) * 2^e
    else (if q % 2 = 0 then q else q+1) * 2^e

/-- Round an integer to the nearest float64-representable value; this models
the Go conversion `float64(d)` of an int64 duration `d`. -/
def floatRound : Int → Int
  | .ofNat n => .ofNat (floatRoundNat n)
  | .negSucc n => -(.ofNat (floatRoundNat (n+1)))

/-- Go conversion of a float64 holding an integer value to int64.  In range
the value is preserved; out of range the result is implementation-defined in
Go, and the gc compiler on amd64 produces the minimum int64. -/
def f64toI64 (x : Int) : Int :=
  if x < -(2^63) ∨ 2^63 ≤ x then -(2^63) else x

/-- Wraparound of int64 arithmetic (Go signed integer overflow wraps). -/
def i64wrap (x : Int) : Int := (x + 2^63) % (2^64) - 2^63

/-! ### Backoff strategies (backoff.go) -/

/-- constantBackoff (backoff.go). -/
structure ConstantBackoff where
  initialDuration : Int
  jitter : Bool

/-- exponentialBackoff (backoff.go). -/
structure ExponentialBackoff where
  initialDuration : Int
  maxDuration : Int
  jitter : Bool

/-- WaitTime of constantBackoff (backoff.go lines 44-50).  `r` is the random
oracle for `rand.Int63n`; `none` models the panic of `Int63n` on a
non-positive bound. -/
def constantWaitTime (cb : ConstantBackoff) (r : Int) : Option Int :=
  if !cb.jitter then some cb.initialDuration
  else if cb.initialDuration ≤ 0 then none
  else some (i64wrap (cb.initialDuration.tdiv 2 + r % cb.initialDuration))

/-- WaitTime of exponentialBackoff (backoff.go lines 65-73).
`temp := math.Min(float64(maxDuration), float64(initialDuration)*math.Exp2(attemptNum))`
is computed exactly: both operands are integers (see the float64 model above),
multiplication by a power of two is exact scaling, and `math.Min` of integers
is `min`.  Without jitter the code returns `time.Duration(temp)`; with jitter
it takes `n := int64(temp / 2)` (exact halving then truncation toward zero)
and returns `n + rand.Int63n(n)`, which panics (`none`) when `n ≤ 0`. -/
def exponentialWaitTime (eb : ExponentialBackoff) (attemptNum : Nat) (r : Int) : Option Int :=
  let temp : Int := min (floatRound eb.maxDuration) (floatRound eb.initialDuration * 2 ^ attemptNum)
  if !eb.jitter then some (f64toI64 temp)
  else
    let n : Int := f64toI64 (temp.tdiv 2)
    if n ≤ 0 then none
    else some (i64wrap (n + r % n))

/-! ### Responses, retrier, requests -/

/-- The two slots of a ghttp Response that the execution loop writes:
`resp.Response` (raw transport result) and `resp.err`. -/
abbrev GoResponse (ε ρ : Type) := Option ρ × Option ε

/-- Retrier (retry source).  The `backoff` field is carried as in the source;
its value only feeds the inter-attempt sleep, whose outcome the loop model
observes through `LoopEnv.sleepCancel`. -/
structure Retrier (ε ρ : Type) where
  maxAttempts : Int
  backoff : Nat → GoResponse ε ρ → Int
  triggers : List (GoResponse ε ρ → Bool)

/-- noRetry (retry source): maxAttempts 1, no triggers; the nil backoff of the
source is embedded as a dummy since it is never consulted. -/
def noRetry : Retrier ε ρ := { maxAttempts := 1, backoff := fun _ _ => 0, triggers := [] }

/-- The trigger scan inside Retrier.on: return true at the first trigger that
fires, in registration order. -/
def onAux : List (GoResponse ε ρ → Bool) → GoResponse ε ρ → Bool
  | [], _ => false
  | t :: ts, resp => if t resp then true else onAux ts resp

/-- Retrier.on (retry source lines 121-133). -/
def Retrier.on (r : Retrier ε ρ) (resp : GoResponse ε ρ) : Bool :=
  if r.triggers.length = 0 then false else onAux r.triggers resp

/-- A body stream (an io.Reader): the bytes it delivers, then EOF
(`failure = none`) or a terminal read error. -/
structure BodyStream (ε : Type) where
  content : List Nat
  failure : Option ε
deriving DecidableEq

/-- http.NoBody: the canonical empty body sentinel. -/
def noBody : BodyStream ε := ⟨[], none⟩

/-- Request (request.go): the fields the execution pipeline reads.  Header,
query, cookie and auth construction are data shaping outside the core. -/
structure GoRequest (ε ρ : Type) where
  method : String
  url : String
  body : Option (BodyStream ε)
  getBody : Option (Unit → BodyStream ε)
  contentLength : Nat
  retrier : Option (Retrier ε ρ)

/-- drainBody (dump.go lines 19-24): `bytes.Buffer.ReadFrom` reads the stream
until EOF or error, returning the buffered bytes and the error. -/
def drainBody (b : BodyStream ε) : List Nat × Option ε := (b.content, b.failure)

/-- Request.SetBody (request.go) specialized to the `*bytes.Buffer` case used
by the retry pipeline: installs a GetBody returning a fresh reader over the
buffered bytes, records the content length, and normalizes a zero-length body
to the http.NoBody sentinel. -/
def setBodyBuffer (req : GoRequest ε ρ) (buf : List Nat) : GoRequest ε ρ :=
  let req2 : GoRequest ε ρ :=
    { req with body := some ⟨buf, none⟩,
               contentLength := buf.length,
               getBody := some fun _ => ⟨buf, none⟩ }
  if req2.contentLength = 0 then
    { req2 with body := some noBody, getBody := some fun _ => noBody }
  else req2

/-! ### The execution loop (client source, doWithRetry) -/

/-- Per-request oracles for the external collaborators the loop observes:
the transport result of attempt i, the value of ctx.Err() checked right after
attempt i, and whether ctx.Done() fires (with which error) before the sleep
following attempt i completes. -/
structure LoopEnv (ε ρ : Type) where
  attempt : Nat → GoResponse ε ρ
  ctxErrAfter : Nat → Option ε
  sleepCancel : Nat → Option ε

/-- The observable outcome of the pipeline: the two response slots plus the
number of transport attempts performed (a ghost counter for the theorems). -/
structure LoopOut (ε ρ : Type) where
  response : Option ρ
  err : Option ε
  attempts : Nat
deriving DecidableEq

/-- The for-loop of doWithRetry (client source lines 315-331).  `fuel` is the
number of remaining iterations allowed by `i < maxAttempts`; the guard
`i >= maxAttempts-1` of the source is exactly `fuel = 0` after entering an
iteration.  The body-regeneration statement between the decision and the sleep
mutates only the request body, which the transport oracle abstracts. -/
def retryLoopAux (env : LoopEnv ε ρ) (r : Retrier ε ρ) :
    Nat → Nat → GoResponse ε ρ → LoopOut ε ρ
  | i, 0, resp => ⟨resp.1, resp.2, i⟩
  | i, fuel+1, _ =>
    let resp := env.attempt i
    if (env.ctxErrAfter i).isSome || fuel == 0 || !(r.on resp) then
      ⟨resp.1, resp.2, i+1⟩
    else
      match env.sleepCancel i with
      | some e => ⟨resp.1, some e, i+1⟩
      | none => retryLoopAux env r (i+1) fuel resp

/-- The loop entered with a fresh response (both slots nil) and the iteration
count `max(0, maxAttempts)` of the Go for-loop. -/
def retryLoop (env : LoopEnv ε ρ) (r : Retrier ε ρ) : LoopOut ε ρ :=
  retryLoopAux env r 0 r.maxAttempts.toNat (none, none)

/-- The preparation phase of doWithRetry (client source lines 294-305): a nil
retrier is replaced by noRetry; otherwise, when more than one attempt is
possible and the body is present but not regenerable, the body is eagerly
drained and replaced, a drain error being terminal. -/
def prepare (req : GoRequest ε ρ) : Except ε (GoRequest ε ρ) :=
  match req.retrier with
  | none => .ok { req with retrier := some noRetry }
  | some r =>
    match req.body with
    | some b =>
      if 1 < r.maxAttempts ∧ req.getBody.isNone then
        match drainBody b with
        | (_, some e) => .error e
        | (buf, none) => .ok (setBodyBuffer req buf)
      else .ok req
    | none => .ok req

/-- The limiter capability as the loop observes it for one request: the result
of the non-blocking Allow check and of the blocking Wait. -/
structure GoLimiter (ε : Type) where
  allow : Bool
  wait : Option ε

/-- Client (client source): hook chains, optional limiter, and the oracles for
the transport and context of the request being processed. -/
structure Client (ε ρ : Type) where
  beforeHooks : List (GoRequest ε ρ → Option ε × GoRequest ε ρ)
  afterHooks : List (GoResponse ε ρ → Option ε)
  limiter : Option (GoLimiter ε)
  env : LoopEnv ε ρ

/-- doWithRetry (client source lines 293-332): preparation, then the limiter
gate (Wait only when Allow declines; a Wait error is terminal with no
attempt), then the loop. -/
def doWithRetry (c : Client ε ρ) (req : GoRequest ε ρ) : LoopOut ε ρ :=
  match prepare req with
  | .error e => ⟨none, some e, 0⟩
  | .ok req2 =>
    let r := req2.retrier.getD noRetry
    match c.limiter with
    | some lim =>
      if !lim.allow then
        match lim.wait with
        | some e => ⟨none, some e, 0⟩
        | none => retryLoop c.env r
      else retryLoop c.env r
    | none => retryLoop c.env r

/-- onBeforeRequest (client source lines 283-291): run the hooks in order,
stopping at the first error; hooks may mutate the request. -/
def onBeforeRequest : List (GoRequest ε ρ → Option ε × GoRequest ε ρ) →
    GoRequest ε ρ → Option ε × GoRequest ε ρ
  | [], req => (none, req)
  | h :: hs, req =>
    match h req with
    | (some e, req2) => (some e, req2)
    | (none, req2) => onBeforeRequest hs req2

/-- The hook scan of onAfterResponse: first error overwrites the error slot
and stops the chain. -/
def runAfterHooks : List (GoResponse ε ρ → Option ε) → LoopOut ε ρ → LoopOut ε ρ
  | [], out => out
  | h :: hs, out =>
    match h (out.response, out.err) with
    | some e => { out with err := some e }
    | none => runAfterHooks hs out

/-- onAfterResponse (client source lines 353-365): a response already carrying
an error is returned untouched; otherwise the after-response hooks run. -/
def onAfterResponse (hooks : List (GoResponse ε ρ → Option ε)) (out : LoopOut ε ρ) : LoopOut ε ρ :=
  if out.err.isSome then out else runAfterHooks hooks out

/-- Client.Do (client source lines 270-281). -/
def Do (c : Client ε ρ) (req : GoRequest ε ρ) : LoopOut ε ρ :=
  match onBeforeRequest c.beforeHooks req with
  | (some e, _) => ⟨none, some e, 0⟩
  | (none, req2) => onAfterResponse c.afterHooks (doWithRetry c req2)

/-! ### NewRequest, Send and the method helpers (request.go, client source) -/

/-- The option fold of NewRequest (request.go lines 61-65): options run in
order, the first error stops the fold and is returned beside the request. -/
def applyOptions : List (GoRequest ε ρ → Option ε × GoRequest ε ρ) →
    GoRequest ε ρ → GoRequest ε ρ × Option ε
  | [], req => (req, none)
  | o :: os, req =>
    match o req with
    | (some e, req2) => (req2, some e)
    | (none, req2) => applyOptions os req2

/-- NewRequest (request.go lines 49-67).  http.NewRequest is standard-library
code outside this repository and is modelled as always succeeding with an
empty request; its URL-parse failures are not the subject of any claim. -/
def NewRequest (method url : String)
    (opts : List (GoRequest ε ρ → Option ε × GoRequest ε ρ)) : GoRequest ε ρ × Option ε :=
  applyOptions opts
    { method := method, url := url, body := none, getBody := none,
      contentLength := 0, retrier := none }

/-- Client.Send (client source lines 230-237). -/
def Send (c : Client ε ρ) (method url : String)
    (opts : List (GoRequest ε ρ → Option ε × GoRequest ε ρ)) : LoopOut ε ρ :=
  match NewRequest method url opts with
  | (_, some e) => ⟨none, some e, 0⟩
  | (req, none) => Do c req

def MethodGet : String := "GET"
def MethodHead : String := "HEAD"
def MethodPost : String := "POST"
def MethodPut : String := "PUT"
def MethodPatch : String := "PATCH"
def MethodDelete : String := "DELETE"

/-- GlobalClient is a package-level variable; the method helpers below take it
as an explicit first parameter `globalClient` so that the dispatch each method
performs is visible in its definition. -/
def Client.Get (globalClient c : Client ε ρ) (url : String)
    (opts : List (GoRequest ε ρ → Option ε × GoRequest ε ρ)) : LoopOut ε ρ :=
  Send c MethodGet url opts

/-- Client.Head (client source lines 205-207). -/
def Client.Head (globalClient c : Client ε ρ) (url : String)
    (opts : List (GoRequest ε ρ → Option ε × GoRequest ε ρ)) : LoopOut ε ρ :=
  Send c MethodHead url opts

/-- Client.Post (client source lines 210-212). -/
def Client.Post (globalClient c : Client ε ρ) (url : String)
    (opts : List (GoRequest ε ρ → Option ε × GoRequest ε ρ)) : LoopOut ε ρ :=
  Send c MethodPost url opts

/-- Client.Put (client source lines 215-217): the source sends through
GlobalClient, not through the receiver. -/
def Client.Put (globalClient c : Client ε ρ) (url : String)
    (opts : List (GoRequest ε ρ → Option ε × GoRequest ε ρ)) : LoopOut ε ρ :=
  Send globalClient MethodPut url opts

/-- Client.Patch (client source lines 220-222). -/
def Client.Patch (globalClient c : Client ε ρ) (url : String)
    (opts : List (GoRequest ε ρ → Option ε × GoRequest ε ρ)) : LoopOut ε ρ :=
  Send c MethodPatch url opts

/-- Client.Delete (client source lines 225-227). -/
def Client.Delete (globalClient c : Client ε ρ) (url : String)
    (opts : List (GoRequest ε ρ → Option ε × GoRequest ε ρ)) : LoopOut ε ρ :=
  Send c MethodDelete url opts

/-! ### Helper lemmas -/

lemma dropBits_succ (f n : Nat) :
    dropBits (f+1) n = if n < 2^53 then 0 else dropBits f (n / 2) + 1 := rfl

/-- Float64 rounding is the identity below the 53-bit significand limit. -/
lemma floatRoundNat_small {n : Nat} (h : n < 2^53) : floatRoundNat n = n := by
  have hd : dropBits 64 n = 0 := by
    rw [show (64 : Nat) = 63 + 1 from rfl, dropBits_succ, if_pos h]
  simp [floatRoundNat, hd]

/-- Float64 rounding of an integer below 2 stays below 2. -/
lemma floatRound_lt_two {x : Int} (h : x < 2) : floatRound x < 2 := by
  match x with
  | .ofNat n =>
    simp only [Int.ofNat_eq_natCast] at h
    have hn : n < 2 := by exact_mod_cast h
    have he : floatRoundNat n = n := floatRoundNat_small (by omega)
    show (Int.ofNat (floatRoundNat n)) < 2
    rw [he]
    simp only [Int.ofNat_eq_natCast]
    exact_mod_cast hn
  | .negSucc n =>
    show -(Int.ofNat (floatRoundNat (n+1))) < 2
    simp only [Int.ofNat_eq_natCast]
    have : (0:Int) ≤ (floatRoundNat (n+1) : Int) := Int.natCast_nonneg _
    omega

/-- Float64 rounding of a non-positive integer is non-positive. -/
lemma floatRound_nonpos {x : Int} (h : x ≤ 0) : floatRound x ≤ 0 := by
  match x with
  | .ofNat n =>
    simp only [Int.ofNat_eq_natCast] at h
    have hn : n = 0 := by omega
    subst hn
    show (Int.ofNat (floatRoundNat 0)) ≤ 0
    rw [floatRoundNat_small (by norm_num : (0:Nat) < 2^53)]
    simp
  | .negSucc n =>
    show -(Int.ofNat (floatRoundNat (n+1))) ≤ 0
    simp only [Int.ofNat_eq_natCast]
    have : (0:Int) ≤ (floatRoundNat (n+1) : Int) := Int.natCast_nonneg _
    omega

/-- Truncating division by two of an integer below 2 is non-positive. -/
lemma tdiv_two_nonpos {x : Int} (h : x < 2) : x.tdiv 2 ≤ 0 := by
  match x with
  | .ofNat n =>
    simp only [Int.ofNat_eq_natCast] at h
    have hn : n < 2 := by exact_mod_cast h
    rw [show (Int.ofNat n).tdiv 2 = Int.ofNat (n / 2) from rfl]
    rw [Nat.div_eq_of_lt hn]
    simp
  | .negSucc n =>
    rw [show (Int.negSucc n).tdiv 2 = -(Int.ofNat ((n+1) / 2)) from rfl]
    simp only [Int.ofNat_eq_natCast]
    have : (0:Int) ≤ (((n+1) / 2 : Nat) : Int) := Int.natCast_nonneg _
    omega

/-- f64toI64 of a non-positive value is non-positive. -/
lemma f64toI64_nonpos {x : Int} (h : x ≤ 0) : f64toI64 x ≤ 0 := by
  unfold f64toI64
  split <;> omega

/-- f64toI64 is the identity on the int64 range. -/
lemma f64toI64_eq {x : Int} (h1 : -(2^63) ≤ x) (h2 : x < 2^63) : f64toI64 x = x := by
  unfold f64toI64
  rw [if_neg]
  omega

/-- i64wrap is the identity on the int64 range. -/
lemma i64wrap_eq {x : Int} (h1 : -(2^63) ≤ x) (h2 : x < 2^63) : i64wrap x = x := by
  unfold i64wrap
  rw [Int.emod_eq_of_lt (by omega) (by omega)]
  omega

/-- The trigger scan fires exactly when some trigger fires. -/
lemma onAux_eq_true_iff (resp : GoResponse ε ρ) :
    ∀ ts : List (GoResponse ε ρ → Bool), onAux ts resp = true ↔ ∃ t ∈ ts, t resp = true := by
  intro ts
  induction ts with
  | nil => simp [onAux]
  | cons t ts ih =>
    by_cases h : t resp = true
    · simp [onAux, h]
    · simp [onAux, h, ih]

/-! ### C4 -/

/-- C4: Retrier.on returns true exactly when the trigger list is non-empty and
some registered trigger fires on the response (the scan is a short-circuit OR
in registration order); in particular a retrier with zero triggers never
retries, whatever the response — also one carrying a transport error. -/
theorem retrier_on_iff (r : Retrier ε ρ) (resp : GoResponse ε ρ) :
    r.on resp = true ↔ r.triggers ≠ [] ∧ ∃ t ∈ r.triggers, t resp = true := by
  unfold Retrier.on
  rcases h : r.triggers with _ | ⟨t, ts⟩
  · simp
  · rw [if_neg (by simp)]
    rw [onAux_eq_true_iff]
    simp

/-! ### C5 -/

/-- C5: there is a configuration of the exponential backoff with jitter
enabled, an attempt index and a reachable random draw for which WaitTime
returns a duration strictly greater than the configured maxDuration.  The
mechanism: float64 cannot represent maxDuration = 2^63 - 1535, so the clamp
rounds up to 2^63 - 1024 before the jitter range [n, 2n) is formed. -/
theorem exp_jitter_can_exceed_cap :
    ∃ (eb : ExponentialBackoff) (i : Nat) (r d : Int),
      eb.jitter = true ∧ exponentialWaitTime eb i r = some d ∧ eb.maxDuration < d := by
  refine ⟨⟨2^62, 2^63 - 1535, true⟩, 1, 2^62 - 513, 2^63 - 1025, rfl, by decide, by decide⟩

/-! ### C10 -/

/-- C10: WaitTime with jitter is not total.  The exponential WaitTime panics
(no value is returned) at every attempt index where the clamped value
min(maxDuration, initialDuration * 2^i) is below 2 nanoseconds — in
particular whenever initialDuration is non-positive — and the constant
WaitTime with jitter panics whenever initialDuration is non-positive, because
both pass a non-positive bound to rand.Int63n. -/
theorem waittime_panic_conditions :
    (∀ (eb : ExponentialBackoff), eb.jitter = true → ∀ (i : Nat) (r : Int),
        min eb.maxDuration (eb.initialDuration * 2 ^ i) < 2 →
        exponentialWaitTime eb i r = none) ∧
    (∀ (eb : ExponentialBackoff), eb.jitter = true → eb.initialDuration ≤ 0 →
        ∀ (i : Nat) (r : Int), exponentialWaitTime eb i r = none) ∧
    (∀ (cb : ConstantBackoff), cb.jitter = true → cb.initialDuration ≤ 0 →
        ∀ r : Int, constantWaitTime cb r = none) := by
  have main : ∀ (eb : ExponentialBackoff), eb.jitter = true → ∀ (i : Nat) (r : Int),
      min eb.maxDuration (eb.initialDuration * 2 ^ i) < 2 →
      exponentialWaitTime eb i r = none := by
    intro eb hj i r hlt
    have hpow : (0 : Int) < 2 ^ i := by positivity
    have htemp : min (floatRound eb.maxDuration) (floatRound eb.initialDuration * 2 ^ i) < 2 := by
      rcases min_lt_iff.mp hlt with hmax | hinit
      · exact lt_of_le_of_lt (min_le_left _ _) (floatRound_lt_two hmax)
      · refine lt_of_le_of_lt (min_le_right _ _) ?_
        rcases le_or_lt eb.initialDuration 0 with h0 | h0
        · have : floatRound eb.initialDuration ≤ 0 := floatRound_nonpos h0
          nlinarith
        · have h1 : 1 ≤ eb.initialDuration := h0
          have hpi : (2:Int) ^ i < 2 := by nlinarith
          have hi0 : i = 0 := by
            by_contra hne
            have : (2:Int) ^ 1 ≤ 2 ^ i := pow_le_pow_right₀ (by norm_num) (by omega)
            simp at this
            omega
          subst hi0
          have : eb.initialDuration = 1 := by simp at hinit; omega
          rw [this]
          have : floatRound 1 = 1 := by decide
          simp [this]
    have hn : f64toI64 ((min (floatRound eb.maxDuration)
        (floatRound eb.initialDuration * 2 ^ i)).tdiv 2) ≤ 0 :=
      f64toI64_nonpos (tdiv_two_nonpos htemp)
    unfold exponentialWaitTime
    rw [hj]
    simp only [Bool.not_true, Bool.false_eq_true, if_false]
    rw [if_pos hn]
  refine ⟨main, ?_, ?_⟩
  · intro eb hj h0 i r
    apply main eb hj i r
    have hpow : (0 : Int) < 2 ^ i := by positivity
    have : eb.initialDuration * 2 ^ i ≤ 0 := by nlinarith
    exact lt_of_le_of_lt (min_le_right _ _) (by omega)
  · intro cb hj h0 r
    simp [constantWaitTime, hj, h0]

/-- Concrete instances of the panic conditions: exponential backoff with
initialDuration 0 and constant backoff with initialDuration 0, both with
jitter, return no value. -/
theorem waittime_panic_conditions_witness :
    exponentialWaitTime ⟨0, 100, true⟩ 3 7 = none ∧
    constantWaitTime ⟨0, true⟩ 5 = none := by
  refine ⟨waittime_panic_conditions.1 ⟨0, 100, true⟩ rfl 3 7 (by decide),
    waittime_panic_conditions.2.2 ⟨0, true⟩ rfl (by decide) 5⟩

/-! ### C6 -/

/-- C6 fails as stated: at initialDuration = 2^53 + 1 (a valid int64 duration
of about 104 days) the float64 conversion rounds to 2^53, so the jitter-free
WaitTime differs from min(maxDuration, initialDuration * 2^i); and at a
negative initialDuration the wait sequence is strictly decreasing. -/
theorem exp_nojitter_counterexample :
    exponentialWaitTime ⟨2^53 + 1, 2^62, false⟩ 0 0
        ≠ some (min ((2^62 : Int)) ((2^53 + 1) * 2 ^ 0)) ∧
    (∃ d0 d1 : Int,
      exponentialWaitTime ⟨-1, 100, false⟩ 0 0 = some d0 ∧
      exponentialWaitTime ⟨-1, 100, false⟩ 1 0 = some d1 ∧
      d1 < d0) := by
  exact ⟨by decide, ⟨-1, -2, by decide, by decide, by decide⟩⟩

/-- C6 amended: for a jitter-free exponential backoff whose positive
initialDuration and whose maxDuration are exactly representable in float64
and in int64 range, WaitTime(i) equals min(maxDuration, initialDuration *
2^i) for every attempt index and every random oracle, the sequence is
monotonically non-decreasing, and once it reaches maxDuration it stays
constant at maxDuration. -/
theorem exp_nojitter_formula (eb : ExponentialBackoff)
    (hj : eb.jitter = false)
    (h1 : 1 ≤ eb.initialDuration)
    (hfi : floatRound eb.initialDuration = eb.initialDuration)
    (hfm : floatRound eb.maxDuration = eb.maxDuration)
    (hlo : -(2^63) ≤ eb.maxDuration) (hhi : eb.maxDuration < 2^63) :
    (∀ (i : Nat) (r : Int), exponentialWaitTime eb i r
        = some (min eb.maxDuration (eb.initialDuration * 2 ^ i))) ∧
    (∀ i j : Nat, i ≤ j →
        min eb.maxDuration (eb.initialDuration * 2 ^ i)
          ≤ min eb.maxDuration (eb.initialDuration * 2 ^ j)) ∧
    (∀ i j : Nat, i ≤ j →
        min eb.maxDuration (eb.initialDuration * 2 ^ i) = eb.maxDuration →
        min eb.maxDuration (eb.initialDuration * 2 ^ j) = eb.maxDuration) := by
  have hmono : ∀ i j : Nat, i ≤ j →
      min eb.maxDuration (eb.initialDuration * 2 ^ i)
        ≤ min eb.maxDuration (eb.initialDuration * 2 ^ j) := by
    intro i j hij
    refine min_le_min le_rfl ?_
    exact mul_le_mul_of_nonneg_left (pow_le_pow_right₀ (by norm_num) hij) (by linarith)
  refine ⟨?_, hmono, ?_⟩
  · intro i r
    have hp : (0:Int) < eb.initialDuration * 2 ^ i := by positivity
    simp only [exponentialWaitTime, hj, hfi, hfm, Bool.not_false, if_true]
    congr 1
    refine f64toI64_eq (le_min hlo (by linarith)) (lt_of_le_of_lt (min_le_left _ _) hhi)
  · intro i j hij hcap
    have hle := hmono i j hij
    rw [hcap] at hle
    exact le_antisymm (min_le_left _ _) hle

/-- Concrete instance of the amended C6: initialDuration 1, maxDuration 4,
attempt 3 gives min 4 8 = 4. -/
theorem exp_nojitter_formula_witness :
    exponentialWaitTime ⟨1, 4, false⟩ 3 0 = some (min (4:Int) (1 * 2 ^ 3)) :=
  (exp_nojitter_formula ⟨1, 4, false⟩ rfl (by decide) (by decide) (by decide)
    (by decide) (by decide)).1 3 0

/-! ### C7 -/

/-- C7 fails as stated: at initialDuration = 2^54 + 2 the float64 conversion
rounds down to 2^54, and the draw 0 returns 2^53, strictly below the claimed
lower bound cappedValue/2 = 2^53 + 1; moreover at initialDuration 1 WaitTime
returns no value at all (rand.Int63n panics on the bound 0). -/
theorem exp_jitter_counterexample :
    (∃ d : Int, exponentialWaitTime ⟨2^54 + 2, 2^62, true⟩ 0 0 = some d ∧
        d < (min ((2^62 : Int)) ((2^54 + 2) * 2 ^ 0)).tdiv 2) ∧
    exponentialWaitTime ⟨1, 100, true⟩ 0 0 = none := by
  exact ⟨⟨2^53, by decide, by decide⟩, by decide⟩

/-- C7 amended: for an exponential backoff with jitter whose initialDuration
and maxDuration are at least 2, exactly representable in float64 and in int64
range, WaitTime(i) returns a value d with half ≤ d < 2 * half, where half is
the integer-truncated cappedValue/2 and cappedValue = min(maxDuration,
initialDuration * 2^i); in particular d is at least the truncated half of the
capped value. -/
theorem exp_jitter_range (eb : ExponentialBackoff)
    (hj : eb.jitter = true)
    (h2 : 2 ≤ eb.initialDuration) (hm2 : 2 ≤ eb.maxDuration)
    (hfi : floatRound eb.initialDuration = eb.initialDuration)
    (hfm : floatRound eb.maxDuration = eb.maxDuration)
    (hhi : eb.maxDuration < 2^63)
    (i : Nat) (r : Int) :
    ∃ d, exponentialWaitTime eb i r = some d ∧
      (min eb.maxDuration (eb.initialDuration * 2 ^ i)).tdiv 2 ≤ d ∧
      d < 2 * (min eb.maxDuration (eb.initialDuration * 2 ^ i)).tdiv 2 := by
  set capped := min eb.maxDuration (eb.initialDuration * 2 ^ i) with hcdef
  have hpow : (0:Int) < 2 ^ i := by positivity
  have hc2 : 2 ≤ capped := le_min hm2 (by nlinarith)
  have hc63 : capped < 2^63 := lt_of_le_of_lt (min_le_left _ _) hhi
  have htd : capped.tdiv 2 = capped / 2 := Int.tdiv_eq_ediv (by omega) (by norm_num)
  have hn1 : 1 ≤ capped / 2 := by omega
  have hn62 : capped / 2 < 2^62 := by omega
  have hfn : f64toI64 (capped.tdiv 2) = capped.tdiv 2 := f64toI64_eq (by omega) (by omega)
  have her0 : 0 ≤ r % capped.tdiv 2 := Int.emod_nonneg r (by omega)
  have her1 : r % capped.tdiv 2 < capped.tdiv 2 := Int.emod_lt_of_pos r (by omega)
  have key : exponentialWaitTime eb i r
      = some (i64wrap (capped.tdiv 2 + r % capped.tdiv 2)) := by
    simp only [exponentialWaitTime, hj, hfi, hfm, Bool.not_true, Bool.false_eq_true,
      if_false, ← hcdef, hfn]
    rw [if_neg (by omega)]
  have hw : i64wrap (capped.tdiv 2 + r % capped.tdiv 2)
      = capped.tdiv 2 + r % capped.tdiv 2 := i64wrap_eq (by omega) (by omega)
  exact ⟨capped.tdiv 2 + r % capped.tdiv 2, by rw [key, hw], by omega, by omega⟩

/-- Concrete instance of the amended C7: initialDuration 2, maxDuration 100,
attempt 0, draw 0. -/
theorem exp_jitter_range_witness :
    ∃ d, exponentialWaitTime ⟨2, 100, true⟩ 0 0 = some d ∧
      (min (100:Int) (2 * 2 ^ 0)).tdiv 2 ≤ d ∧
      d < 2 * (min (100:Int) (2 * 2 ^ 0)).tdiv 2 :=
  exp_jitter_range ⟨2, 100, true⟩ rfl (by decide) (by decide) (by decide)
    (by decide) (by decide) 0 0

/-! ### Loop unfolding lemmas -/

/-- One-step unfolding of the loop body at positive fuel. -/
lemma retryLoopAux_succ (env : LoopEnv ε ρ) (r : Retrier ε ρ) (i fuel : Nat)
    (resp : GoResponse ε ρ) :
    retryLoopAux env r i (fuel+1) resp
      = if (env.ctxErrAfter i).isSome || fuel == 0 || !(r.on (env.attempt i)) then
          ⟨(env.attempt i).1, (env.attempt i).2, i+1⟩
        else
          match env.sleepCancel i with
          | some e => ⟨(env.attempt i).1, some e, i+1⟩
          | none => retryLoopAux env r (i+1) fuel (env.attempt i) := rfl

/-- When the context stays quiet and the retrier always fires, the loop
consumes all its fuel, one attempt per unit. -/
lemma retryLoopAux_always (env : LoopEnv ε ρ) (r : Retrier ε ρ)
    (hon : ∀ resp, r.on resp = true)
    (hctx : ∀ i, env.ctxErrAfter i = none)
    (hsleep : ∀ i, env.sleepCancel i = none) :
    ∀ (fuel i : Nat) (resp : GoResponse ε ρ),
      retryLoopAux env r i (fuel+1) resp
        = ⟨(env.attempt (i+fuel)).1, (env.attempt (i+fuel)).2, i+fuel+1⟩ := by
  intro fuel
  induction fuel with
  | zero =>
    intro i resp
    rw [retryLoopAux_succ]
    simp [hctx i]
  | succ f ih =>
    intro i resp
    rw [retryLoopAux_succ]
    rw [hctx i]
    simp only [Option.isSome_none, hon, Bool.not_true, Bool.or_false, Bool.false_or]
    rw [if_neg (by simp)]
    rw [hsleep i]
    show retryLoopAux env r (i+1) (f+1) (env.attempt i) = _
    rw [ih (i+1) (env.attempt i)]
    have h1 : i + 1 + f = i + (f + 1) := by omega
    rw [h1]

/-- When the loop reaches the sleep after attempt i with more attempts
permitted and the context fires there, the loop stops with that error. -/
lemma retryLoopAux_cancel (env : LoopEnv ε ρ) (r : Retrier ε ρ) (i : Nat) (e : ε)
    (hon : ∀ j, j ≤ i → r.on (env.attempt j) = true)
    (hctx : ∀ j, j ≤ i → env.ctxErrAfter j = none)
    (hsleepPrev : ∀ j, j < i → env.sleepCancel j = none)
    (hsleepI : env.sleepCancel i = some e) :
    ∀ (d j fuel : Nat) (resp : GoResponse ε ρ),
      j + d = i → i + 2 ≤ j + fuel →
      retryLoopAux env r j fuel resp = ⟨(env.attempt i).1, some e, i+1⟩ := by
  intro d
  induction d with
  | zero =>
    intro j fuel resp hji hfuel
    obtain rfl : i = j := by omega
    obtain ⟨f, rfl⟩ : ∃ f, fuel = f + 1 := ⟨fuel - 1, by omega⟩
    rw [retryLoopAux_succ]
    rw [hctx i le_rfl]
    simp only [Option.isSome_none, hon i le_rfl, Bool.not_true, Bool.or_false, Bool.false_or]
    rw [if_neg (by simp only [beq_iff_eq]; omega)]
    rw [hsleepI]
  | succ dd ih =>
    intro j fuel resp hji hfuel
    obtain ⟨f, rfl⟩ : ∃ f, fuel = f + 1 := ⟨fuel - 1, by omega⟩
    rw [retryLoopAux_succ]
    rw [hctx j (by omega)]
    simp only [Option.isSome_none, hon j (by omega), Bool.not_true, Bool.or_false, Bool.false_or]
    rw [if_neg (by simp only [beq_iff_eq]; omega)]
    rw [hsleepPrev j (by omega)]
    exact ih (j+1) f (env.attempt j) (by omega) (by omega)

/-! ### C1 -/

/-- C1: with a retry policy of maxAttempts N >= 1 and a single trigger firing
on every response, and a context that never cancels or expires, the loop
performs exactly N transport attempts and returns the response of the last
attempt with its error slot unchanged. -/
theorem retry_exact_attempts (N : Nat) (hN : 1 ≤ N)
    (b : Nat → GoResponse ε ρ → Int) (t : GoResponse ε ρ → Bool)
    (ht : ∀ resp, t resp = true)
    (env : LoopEnv ε ρ)
    (hctx : ∀ i, env.ctxErrAfter i = none)
    (hsleep : ∀ i, env.sleepCancel i = none) :
    retryLoop env ⟨(N : Int), b, [t]⟩
      = ⟨(env.attempt (N-1)).1, (env.attempt (N-1)).2, N⟩ := by
  have hon : ∀ resp, Retrier.on ⟨(N : Int), b, [t]⟩ resp = true := by
    intro resp
    simp [Retrier.on, onAux, ht resp]
  obtain ⟨M, rfl⟩ : ∃ M, N = M + 1 := ⟨N - 1, by omega⟩
  unfold retryLoop
  rw [show (Retrier.mk ((M+1 : Nat) : Int) b [t]).maxAttempts.toNat = M + 1 by simp]
  rw [retryLoopAux_always env _ hon hctx hsleep M 0 (none, none)]
  simp

/-- Concrete instance of C1: two attempts, always-true trigger, quiet
context; the loop returns the second attempt and counts two attempts. -/
theorem retry_exact_attempts_witness :
    retryLoop (⟨fun i => (some i, some (i+10)), fun _ => none, fun _ => none⟩ : LoopEnv Nat Nat)
      ⟨((2 : Nat) : Int), fun _ _ => 0, [fun _ => true]⟩
      = ⟨some 1, some 11, 2⟩ := by
  have h := retry_exact_attempts 2 (by omega) (fun _ _ => 0) (fun _ => true) (fun _ => rfl)
      (⟨fun i => (some i, some (i+10)), fun _ => none, fun _ => none⟩ : LoopEnv Nat Nat)
      (fun _ => rfl) (fun _ => rfl)
  exact h

/-! ### C3 -/

/-- C3: if the context fires during the inter-attempt backoff sleep after
attempt i (with further attempts still permitted, the context quiet at the
post-attempt checks, the retrier asking for a retry, and every earlier sleep
completing), the loop stops immediately with the context error in the error
slot and performs no further transport attempt: exactly i+1 attempts. -/
theorem cancel_during_sleep (env : LoopEnv ε ρ) (r : Retrier ε ρ) (i : Nat) (e : ε)
    (hi : (i : Int) < r.maxAttempts - 1)
    (hctx : ∀ j, j ≤ i → env.ctxErrAfter j = none)
    (hon : ∀ j, j ≤ i → r.on (env.attempt j) = true)
    (hsleepPrev : ∀ j, j < i → env.sleepCancel j = none)
    (hsleepI : env.sleepCancel i = some e) :
    retryLoop env r = ⟨(env.attempt i).1, some e, i + 1⟩ := by
  exact retryLoopAux_cancel env r i e hon hctx hsleepPrev hsleepI i 0
    r.maxAttempts.toNat (none, none) (by omega) (by omega)

/-- Concrete instance of C3: maxAttempts 3, cancellation with error 9 during
the first sleep; one attempt performed, error slot 9. -/
theorem cancel_during_sleep_witness :
    retryLoop (⟨fun i => (some i, none), fun _ => none, fun _ => some 9⟩ : LoopEnv Nat Nat)
      ⟨3, fun _ _ => 0, [fun _ => true]⟩
      = ⟨some 0, some 9, 1⟩ := by
  exact cancel_during_sleep _ _ 0 9 (by decide) (fun j hj => rfl) (fun j hj => rfl)
    (fun j hj => absurd hj (Nat.not_lt_zero j)) rfl

/-! ### C2 -/

/-- C2: for a request with a present, non-regenerable body and an attached
retry policy permitting more than one attempt, the pipeline eagerly drains
the whole stream before any attempt: on a read failure it returns that error
with zero transport attempts; on success the prepared request carries a
buffered body over the full stream content and a regeneration function
returning a fresh reader over that same buffer. -/
theorem body_replay_preparation (c : Client ε ρ) (req : GoRequest ε ρ)
    (r : Retrier ε ρ) (s : BodyStream ε)
    (hr : req.retrier = some r) (hN : 1 < r.maxAttempts)
    (hb : req.body = some s) (hg : req.getBody = none) :
    (∀ e, s.failure = some e → doWithRetry c req = ⟨none, some e, 0⟩) ∧
    (s.failure = none →
      ∃ (req2 : GoRequest ε ρ) (g : Unit → BodyStream ε),
        prepare req = .ok req2 ∧
        req2.body = some ⟨s.content, none⟩ ∧
        req2.getBody = some g ∧
        g () = ⟨s.content, none⟩ ∧
        req2.retrier = some r) := by
  constructor
  · intro e he
    have hprep : prepare req = .error e := by
      simp only [prepare, hr, hb]
      rw [if_pos ⟨hN, by rw [hg]; rfl⟩]
      simp [drainBody, he]
    simp only [doWithRetry, hprep]
  · intro hnone
    have hprep : prepare req = .ok (setBodyBuffer req s.content) := by
      simp only [prepare, hr, hb]
      rw [if_pos ⟨hN, by rw [hg]; rfl⟩]
      simp [drainBody, hnone]
    by_cases hlen : s.content = []
    · refine ⟨setBodyBuffer req s.content, fun _ => noBody, hprep, ?_, ?_, ?_, ?_⟩
      all_goals simp [setBodyBuffer, hlen, noBody, hr]
    · refine ⟨setBodyBuffer req s.content, fun _ => ⟨s.content, none⟩, hprep, ?_, ?_, ?_, ?_⟩
      all_goals simp [setBodyBuffer, hlen, hr]

/-- Concrete instance of C2, failure side: a stream failing with error 9
under a 3-attempt retrier surfaces error 9 with zero attempts. -/
theorem body_replay_preparation_witness :
    doWithRetry
      ({ beforeHooks := [], afterHooks := [], limiter := none,
         env := ⟨fun _ => (none, none), fun _ => none, fun _ => none⟩ } : Client Nat Nat)
      { method := "POST", url := "u", body := some ⟨[1, 2], some 9⟩, getBody := none,
        contentLength := 0, retrier := some ⟨3, fun _ _ => 0, []⟩ }
      = ⟨none, some 9, 0⟩ := by
  exact (body_replay_preparation _ _ ⟨3, fun _ _ => 0, []⟩ ⟨[1, 2], some 9⟩
    rfl (by decide) rfl rfl).1 9 rfl

/-! ### C9 -/

/-- After-response hooks returning no error leave the response unchanged. -/
lemma runAfterHooks_none (hooks : List (GoResponse ε ρ → Option ε)) (out : LoopOut ε ρ)
    (h : ∀ hk ∈ hooks, ∀ x, hk x = none) :
    runAfterHooks hooks out = out := by
  induction hooks with
  | nil => rfl
  | cons hk hs ih =>
    show (match hk (out.response, out.err) with
          | some e => { out with err := some e }
          | none => runAfterHooks hs out) = out
    rw [h hk (by simp) (out.response, out.err)]
    exact ih (fun a ha x => h a (by simp [ha]) x)

/-- C9 fails as stated: with a retrier of maxAttempts 0 attached, the loop
performs zero attempts and leaves both slots nil, but Do then runs the
post-response hook chain on that empty response, and a hook returning an
error makes the returned error slot non-nil. -/
theorem zero_max_attempts_counterexample :
    Do ({ beforeHooks := [], afterHooks := [fun _ => some 7], limiter := none,
          env := ⟨fun _ => (none, none), fun _ => none, fun _ => none⟩ } : Client Nat Nat)
       { method := "GET", url := "u", body := none, getBody := none,
         contentLength := 0, retrier := some ⟨0, fun _ _ => 0, []⟩ }
      = ⟨none, some 7, 0⟩ := by
  rfl

/-- C9 amended: with a retrier of maxAttempts <= 0 attached, the execution
loop performs zero transport attempts and leaves the raw response and error
slot both nil; Do feeds that empty response to the post-response hook chain
(which runs, since the error slot is nil), and returns it with both slots nil
provided the before-request hooks leave the request untouched without error,
any limiter admits or waits without error, and no post-response hook returns
an error. -/
theorem zero_max_attempts (c : Client ε ρ) (req : GoRequest ε ρ) (r : Retrier ε ρ)
    (hr : req.retrier = some r) (hN : r.maxAttempts ≤ 0)
    (hbefore : onBeforeRequest c.beforeHooks req = (none, req))
    (hlim : ∀ lim, c.limiter = some lim → lim.allow = true ∨ lim.wait = none) :
    Do c req = onAfterResponse c.afterHooks ⟨none, none, 0⟩ ∧
    ((∀ hk ∈ c.afterHooks, ∀ x, hk x = none) → Do c req = ⟨none, none, 0⟩) := by
  have hcond : ¬(1 < r.maxAttempts ∧ req.getBody.isNone = true) := by
    intro hand
    exact absurd hand.1 (by omega)
  have hprep : prepare req = .ok req := by
    cases hb : req.body with
    | none => simp only [prepare, hr, hb]
    | some s => simp only [prepare, hr, hb, if_neg hcond]
  have hloop : retryLoop c.env r = ⟨none, none, 0⟩ := by
    unfold retryLoop
    rw [show r.maxAttempts.toNat = 0 by omega]
    rfl
  have hdwr : doWithRetry c req = ⟨none, none, 0⟩ := by
    cases hclim : c.limiter with
    | none =>
      simp only [doWithRetry, hprep, hr, Option.getD_some, hclim]
      exact hloop
    | some lim =>
      rcases hlim lim hclim with ha | hw
      · simp only [doWithRetry, hprep, hr, Option.getD_some, hclim, ha, Bool.not_true,
          Bool.false_eq_true, if_false]
        exact hloop
      · cases hal : lim.allow with
        | true =>
          simp only [doWithRetry, hprep, hr, Option.getD_some, hclim, hal, Bool.not_true,
            Bool.false_eq_true, if_false]
          exact hloop
        | false =>
          simp only [doWithRetry, hprep, hr, Option.getD_some, hclim, hal, hw,
            Bool.not_false, if_true]
          exact hloop
  have h1 : Do c req = onAfterResponse c.afterHooks ⟨none, none, 0⟩ := by
    simp only [Do, hbefore, hdwr]
  refine ⟨h1, fun hafter => ?_⟩
  rw [h1]
  unfold onAfterResponse
  simp only [Option.isSome_none, Bool.false_eq_true, if_false]
  exact runAfterHooks_none c.afterHooks ⟨none, none, 0⟩ hafter

/-- Concrete instance of the amended C9: a hook-free client with a retrier of
maxAttempts 0 returns the empty response with both slots nil and zero
attempts. -/
theorem zero_max_attempts_witness :
    Do ({ beforeHooks := [], afterHooks := [], limiter := none,
          env := ⟨fun _ => (none, none), fun _ => none, fun _ => none⟩ } : Client Nat Nat)
       { method := "GET", url := "u", body := none, getBody := none,
         contentLength := 0, retrier := some ⟨0, fun _ _ => 0, []⟩ }
      = ⟨none, none, 0⟩ := by
  exact (zero_max_attempts
    ({ beforeHooks := [], afterHooks := [], limiter := none,
       env := ⟨fun _ => (none, none), fun _ => none, fun _ => none⟩ } : Client Nat Nat)
    { method := "GET", url := "u", body := none, getBody := none,
      contentLength := 0, retrier := some ⟨0, fun _ _ => 0, []⟩ }
    ⟨0, fun _ _ => 0, []⟩ rfl (by decide) rfl
    (fun lim hlim => by simp at hlim)).2 (fun hk hmem => by simp at hmem)

/-! ### C8 -/

/-- C8: Client.Put sends through the package-level GlobalClient — it ignores
its receiver entirely — while Get, Head, Post, Patch and Delete all send
through the receiver; two clients with different transports give different
results for a receiver-routed Put, witnessing the difference. -/
theorem put_uses_global_client :
    (∀ (ε ρ : Type) (g c : Client ε ρ) (url : String)
        (opts : List (GoRequest ε ρ → Option ε × GoRequest ε ρ)),
        Client.Put g c url opts = Send g MethodPut url opts) ∧
    (∀ (ε ρ : Type) (g c c2 : Client ε ρ) (url : String)
        (opts : List (GoRequest ε ρ → Option ε × GoRequest ε ρ)),
        Client.Put g c url opts = Client.Put g c2 url opts) ∧
    (∀ (ε ρ : Type) (g c : Client ε ρ) (url : String)
        (opts : List (GoRequest ε ρ → Option ε × GoRequest ε ρ)),
        Client.Get g c url opts = Send c MethodGet url opts ∧
        Client.Head g c url opts = Send c MethodHead url opts ∧
        Client.Post g c url opts = Send c MethodPost url opts ∧
        Client.Patch g c url opts = Send c MethodPatch url opts ∧
        Client.Delete g c url opts = Send c MethodDelete url opts) ∧
    (∃ (g c : Client Nat Nat) (url : String),
        Client.Put g c url [] ≠ Send c MethodPut url []) := by
  refine ⟨fun _ _ _ _ _ _ => rfl, fun _ _ _ _ _ _ _ => rfl,
    fun _ _ _ _ _ _ => ⟨rfl, rfl, rfl, rfl, rfl⟩, ?_⟩
  refine ⟨{ beforeHooks := [], afterHooks := [], limiter := none,
            env := ⟨fun _ => (none, some 1), fun _ => none, fun _ => none⟩ },
          { beforeHooks := [], afterHooks := [], limiter := none,
            env := ⟨fun _ => (none, some 2), fun _ => none, fun _ => none⟩ },
          "u", ?_⟩
  decide

end Ghttp
